import Mathlib

/-!
Verification of the kangaroo-jack VF node against its specification.

The development shallowly embeds the two core subsystems of the repository:
the VRF engine (src/vrf_engine.rs) and the settlement pipeline
(src/settlement_engine.rs), together with the wire types (src/types.rs)
and the request handler glue (src/main_settlement_broken.rs).

Machine integers are modelled as Nat (all the arithmetic involved stays far
below 2^64, except where an explicit reduction is written).  Byte strings are
List Nat with every element below 256.  Wall-clock readings and generated
UUIDs are threaded through as explicit parameters, making the nondeterminism
of the source explicit.  The external cryptographic libraries
(sha2, ed25519-dalek, merlin) are abstracted as function-valued structure
fields carrying their documented contracts; base64 (base64 crate, STANDARD
engine) is implemented concretely below.
-/

/-- Bytes of an ASCII label string, as used for merlin transcript labels. -/
def strBytes (s : String) : List Nat :=
  s.data.map Char.toNat

/-- Little-endian byte encoding of a natural number into a fixed width,
mirroring u64::to_le_bytes when the width is 8. -/
def natToLeBytes : Nat → Nat → List Nat
  | 0, _ => []
  | n + 1, x => x % 256 :: natToLeBytes n (x / 256)

/-- Little-endian value of a byte list, mirroring u64::from_le_bytes. -/
def leNat : List Nat → Nat
  | [] => 0
  | b :: bs => b + 256 * leNat bs

/-- Alphabet of the base64 STANDARD engine. -/
def base64Alphabet : List Char :=
  "ABCDEFGHIJKLMNOPQRSTUVWXYZabcdefghijklmnopqrstuvwxyz0123456789+/".data

/-- Character of the base64 alphabet at a six-bit index. -/
def b64Char (i : Nat) : Char :=
  base64Alphabet.getD i '?'

/-- Helper for looking a character up in the base64 alphabet. -/
def b64IndexAux : List Char → Nat → Char → Option Nat
  | [], _, _ => none
  | a :: as, i, c => if c = a then some i else b64IndexAux as (i + 1) c

/-- Six-bit index of a base64 alphabet character, none for other characters. -/
def b64Index (c : Char) : Option Nat :=
  b64IndexAux base64Alphabet 0 c

/-- Base64 STANDARD encoding of a byte list (with padding). -/
def base64EncodeList : List Nat → List Char
  | [] => []
  | [b1] => [b64Char (b1 / 4), b64Char (b1 % 4 * 16), '=', '=']
  | [b1, b2] =>
      [b64Char (b1 / 4), b64Char (b1 % 4 * 16 + b2 / 16), b64Char (b2 % 16 * 4), '=']
  | b1 :: b2 :: b3 :: rest =>
      b64Char (b1 / 4) :: b64Char (b1 % 4 * 16 + b2 / 16) ::
        b64Char (b2 % 16 * 4 + b3 / 64) :: b64Char (b3 % 64) :: base64EncodeList rest

/-- Base64 STANDARD decoding (strict: canonical padding, no trailing bits). -/
def base64DecodeList : List Char → Option (List Nat)
  | [] => some []
  | c1 :: c2 :: c3 :: c4 :: rest =>
    match b64Index c1, b64Index c2 with
    | some i1, some i2 =>
      if c3 = '=' then
        if c4 = '=' ∧ rest = [] ∧ i2 % 16 = 0 then
          some [i1 * 4 + i2 / 16]
        else none
      else
        match b64Index c3 with
        | some i3 =>
          if c4 = '=' then
            if rest = [] ∧ i3 % 4 = 0 then
              some [i1 * 4 + i2 / 16, i2 % 16 * 16 + i3 / 4]
            else none
          else
            match b64Index c4, base64DecodeList rest with
            | some i4, some tl =>
                some ((i1 * 4 + i2 / 16) :: (i2 % 16 * 16 + i3 / 4) :: (i3 % 4 * 64 + i4) :: tl)
            | _, _ => none
        | none => none
    | _, _ => none
  | _ => none

/-- String form of base64 encoding, as produced by Base64Engine.encode. -/
def base64Encode (bs : List Nat) : String :=
  String.mk (base64EncodeList bs)

/-- String form of base64 decoding, as performed by Base64Engine.decode. -/
def base64Decode (s : String) : Option (List Nat) :=
  base64DecodeList s.data

theorem b64Index_b64Char : ∀ i, i < 64 → b64Index (b64Char i) = some i := by
  decide

theorem b64Char_ne_pad : ∀ i, i < 64 → b64Char i ≠ '=' := by
  decide

theorem base64_decode_encode :
    ∀ (bs : List Nat), (∀ b ∈ bs, b < 256) →
      base64DecodeList (base64EncodeList bs) = some bs
  | [], _ => by simp [base64EncodeList, base64DecodeList]
  | [b1], h => by
    have hb1 : b1 < 256 := h b1 (by simp)
    have h1 : b1 / 4 < 64 := by omega
    have h2 : b1 % 4 * 16 < 64 := by omega
    simp only [base64EncodeList, base64DecodeList,
      b64Index_b64Char _ h1, b64Index_b64Char _ h2]
    have hmod : b1 % 4 * 16 % 16 = 0 := by omega
    simp [hmod]
    omega
  | [b1, b2], h => by
    have hb1 : b1 < 256 := h b1 (by simp)
    have hb2 : b2 < 256 := h b2 (by simp)
    have h1 : b1 / 4 < 64 := by omega
    have h2 : b1 % 4 * 16 + b2 / 16 < 64 := by omega
    have h3 : b2 % 16 * 4 < 64 := by omega
    simp only [base64EncodeList, base64DecodeList,
      b64Index_b64Char _ h1, b64Index_b64Char _ h2, b64Index_b64Char _ h3]
    rw [if_neg (b64Char_ne_pad _ h3)]
    have hmod : b2 % 16 * 4 % 4 = 0 := by omega
    simp [hmod]
    constructor
    · omega
    · omega
  | b1 :: b2 :: b3 :: rest, h => by
    have hb1 : b1 < 256 := h b1 (by simp)
    have hb2 : b2 < 256 := h b2 (by simp)
    have hb3 : b3 < 256 := h b3 (by simp)
    have hrest : ∀ b ∈ rest, b < 256 := fun b hb => h b (by simp [hb])
    have ih := base64_decode_encode rest hrest
    have h1 : b1 / 4 < 64 := by omega
    have h2 : b1 % 4 * 16 + b2 / 16 < 64 := by omega
    have h3 : b2 % 16 * 4 + b3 / 64 < 64 := by omega
    have h4 : b3 % 64 < 64 := by omega
    match rest with
    | [] =>
      simp only [base64EncodeList, base64DecodeList,
        b64Index_b64Char _ h1, b64Index_b64Char _ h2,
        b64Index_b64Char _ h3, b64Index_b64Char _ h4]
      rw [if_neg (b64Char_ne_pad _ h3), if_neg (b64Char_ne_pad _ h4)]
      simp
      refine ⟨by omega, by omega, by omega⟩
    | r1 :: rest' =>
      simp only [base64EncodeList] at ih ⊢
      simp only [base64DecodeList,
        b64Index_b64Char _ h1, b64Index_b64Char _ h2,
        b64Index_b64Char _ h3, b64Index_b64Char _ h4]
      rw [if_neg (b64Char_ne_pad _ h3), if_neg (b64Char_ne_pad _ h4)]
      rw [ih]
      simp
      refine ⟨by omega, by omega, by omega⟩

theorem base64Decode_base64Encode (bs : List Nat) (h : ∀ b ∈ bs, b < 256) :
    base64Decode (base64Encode bs) = some bs := by
  simpa [base64Decode, base64Encode] using base64_decode_encode bs h

/-! ## Wire types (src/types.rs) -/

/-- Error taxonomy of the node, from the VfError enum in src/types.rs. -/
inductive VfError where
  | InvalidInput (msg : String)
  | InvalidProof (msg : String)
  | VrfFailed (msg : String)
deriving DecidableEq, Repr

/-- Display text of a VfError, from the thiserror derive in src/types.rs. -/
def vfErrorToString : VfError → String
  | .InvalidInput m => "Invalid input: " ++ m
  | .InvalidProof m => "Invalid proof: " ++ m
  | .VrfFailed m => "VRF generation failed: " ++ m

/-- Coinflip request: user seed held as its UTF-8 bytes, and a u64 timestamp
(defaulted at parse time in the source; the parsed value is what reaches the
engine, so it is a plain field here). -/
structure CoinflipRequest where
  user_seed : List Nat
  timestamp : Nat
deriving DecidableEq, Repr

/-- Verifiable proof attached to a coinflip response (base64 text fields). -/
structure VrfProof where
  seed_commitment : String
  vrf_output : String
  signature : String
deriving DecidableEq, Repr

/-- Coinflip response as produced by the engine. -/
structure CoinflipResponse where
  node_id : String
  heads : Bool
  proof : VrfProof
  timestamp : Nat
  processing_time_ms : Nat
deriving DecidableEq, Repr

/-! ## Cryptographic primitives

The source calls into the sha2, merlin and ed25519-dalek crates.  Those
libraries are outside this repository; they are embedded as function-valued
fields so that every repository-level function stays fully explicit, and
their documented guarantees (output sizes, byte ranges, and signature
correctness) are stated as named predicates used as hypotheses. -/

/-- A merlin transcript is a domain-separated sequence of labelled messages;
it is modelled by the exact list of (label, message) pairs absorbed. -/
abbrev TranscriptData := List (String × List Nat)

/-- External hash and transcript-challenge primitives (sha2 and merlin). -/
structure Crypto where
  sha256 : List Nat → List Nat
  challengeBytes : TranscriptData → String → List Nat

/-- The VRF engine identity: an Ed25519 keypair, embedded through the three
operations the source performs with it (expose the verifying key, sign,
verify).  sign and verify close over the fixed signing/verifying keys. -/
structure VrfEngine where
  verifyingKeyBytes : List Nat
  sign : List Nat → List Nat
  edVerify : List Nat → List Nat → Bool

/-- Contract of SHA-256: 32-byte output, bytes below 256. -/
def Sha256Bytes (C : Crypto) : Prop :=
  ∀ bs, (C.sha256 bs).length = 32 ∧ ∀ b ∈ C.sha256 bs, b < 256

/-- Contract of an Ed25519 keypair as used by the engine: signatures are
64 bytes of bytes below 256, and verification accepts its own signatures. -/
def SignatureScheme (E : VrfEngine) : Prop :=
  ∀ m, (E.sign m).length = 64 ∧ (∀ b ∈ E.sign m, b < 256) ∧
    E.edVerify m (E.sign m) = true

/-! ## VRF engine (src/vrf_engine.rs) -/

/-- Node identity string, from VrfEngine::node_pubkey. -/
def node_pubkey (E : VrfEngine) : String :=
  base64Encode E.verifyingKeyBytes

/-- Request validation, from VrfEngine::validate_request. -/
def validate_request (req : CoinflipRequest) : Except VfError Unit :=
  if req.user_seed.isEmpty then
    .error (.InvalidInput "User seed cannot be empty")
  else if 1024 < req.user_seed.length then
    .error (.InvalidInput "User seed too long")
  else
    .ok ()

/-- Transcript construction, from VrfEngine::build_transcript.  The protocol
label of Transcript::new and the three labelled appends, in order; append_u64
absorbs the 8 little-endian bytes of the value. -/
def build_transcript (E : VrfEngine) (req : CoinflipRequest) : TranscriptData :=
  [("vf_coinflip", strBytes "vf_coinflip"),
   ("user_seed", req.user_seed),
   ("node_pubkey", E.verifyingKeyBytes),
   ("timestamp", natToLeBytes 8 req.timestamp)]

/-- VRF core, from VrfEngine::generate_vrf: commit to the verifying key,
derive a 64-byte challenge from the extended transcript, sign it, and hash
the signature down to a u64 random value. -/
def generate_vrf (C : Crypto) (E : VrfEngine) (transcript : TranscriptData) :
    Except VfError (Nat × List Nat × String) :=
  let seed_commit := C.sha256 E.verifyingKeyBytes
  let seed_commit_str := base64Encode seed_commit
  let hash_transcript := transcript ++ [("seed_commit", seed_commit)]
  let challenge_bytes := C.challengeBytes hash_transcript "challenge"
  let signature := E.sign challenge_bytes
  let output_hash := C.sha256 signature
  let random_value := leNat (output_hash.take 8)
  .ok (random_value, signature, seed_commit_str)

/-- Full coinflip processing, from VrfEngine::process_coinflip.  The two
wall-clock reads (response timestamp and elapsed milliseconds) are passed in
explicitly as now and elapsedMs. -/
def process_coinflip (C : Crypto) (E : VrfEngine) (req : CoinflipRequest)
    (now elapsedMs : Nat) : Except VfError CoinflipResponse :=
  match validate_request req with
  | .error e => .error e
  | .ok () =>
    match generate_vrf C E (build_transcript E req) with
    | .error e => .error e
    | .ok (random_value, vrf_proof_bytes, seed_commit) =>
      .ok
        { node_id := node_pubkey E
          heads := random_value &&& 1 == 0
          proof :=
            { seed_commitment := seed_commit
              vrf_output := base64Encode (natToLeBytes 8 random_value)
              signature := base64Encode vrf_proof_bytes }
          timestamp := now
          processing_time_ms := elapsedMs }

/-- Proof verification, from VrfEngine::verify_proof. -/
def verify_proof (C : Crypto) (E : VrfEngine) (proof : VrfProof)
    (req : CoinflipRequest) : Except VfError Bool :=
  let transcript := build_transcript E req
  match base64Decode proof.seed_commitment with
  | none => .error (.InvalidProof "Invalid seed commitment encoding")
  | some seed_commit =>
    match base64Decode proof.signature with
    | none => .error (.InvalidProof "Invalid signature encoding")
    | some signature_bytes =>
      if signature_bytes.length ≠ 64 then
        .error (.InvalidProof "Invalid signature length")
      else
        let hash_transcript := transcript ++ [("seed_commit", seed_commit)]
        let challenge_bytes := C.challengeBytes hash_transcript "challenge"
        if E.edVerify challenge_bytes signature_bytes then
          .ok true
        else
          .error (.InvalidProof "Signature verification failed")

/-- Request handler, from the coinflip handler in src/main_settlement_broken.rs:
on engine success it overwrites processing_time_ms with the handler's own
elapsed reading, attempts the settlement enqueue, and returns the response; on
engine failure it returns a 500 and never reaches the enqueue.  The Bool
records whether enqueue_bet_fast was invoked. -/
def coinflip_handler (C : Crypto) (E : VrfEngine) (req : CoinflipRequest)
    (now elapsedMs handlerElapsedMs : Nat) :
    Except Nat CoinflipResponse × Bool :=
  match process_coinflip C E req now elapsedMs with
  | .ok response => (.ok { response with processing_time_ms := handlerElapsedMs }, true)
  | .error _ => (.error 500, false)

/-! ## Settlement pipeline data model (src/settlement_engine.rs, src/storage.rs)

UUIDs are modelled as Nat identifiers and RFC-3339 wall-clock values as Nat
instants; both are generated outside the pure functions and passed in.  The
f64 running averages of SettlementStats are omitted (floating point); the
integer counters and the last settlement time are kept. -/

/-- In-memory pending bet, from the PendingBet struct. -/
structure PendingBet where
  bet_id : Nat
  user_seed : List Nat
  timestamp : Nat
  node_id : String
  heads : Bool
  vrf_proof : String
  processing_time_ms : Nat
  processed_at : Nat
  retry_count : Nat
deriving DecidableEq, Repr

/-- Status column of a pending_bets row. -/
inductive BetStatus where
  | pending
  | settled
  | failed
deriving DecidableEq, Repr

/-- Row of the pending_bets table, schema from storage.rs migrations. -/
structure DbBetRow where
  bet_id : Nat
  user_seed : List Nat
  timestamp : Nat
  node_id : String
  heads : Bool
  vrf_proof : String
  processing_time_ms : Nat
  processed_at : Nat
  retry_count : Nat
  status : BetStatus
  tx_signature : Option String
  settled_at : Option Nat
  failed_at : Option Nat
  error_message : Option String
deriving DecidableEq, Repr

/-- Row of the settlement_batches table, schema from storage.rs migrations. -/
structure BatchRow where
  batch_id : Nat
  bet_count : Nat
  processing_time_ms : Nat
  tx_signature : String
  success : Bool
  created_at : Nat
deriving DecidableEq, Repr

/-- The durable store: both tables of the SQLite database. -/
structure Db where
  bets : List DbBetRow
  batches : List BatchRow
deriving DecidableEq, Repr

/-- Outcome record of one settlement batch, from the BatchResult struct. -/
structure BatchResult where
  batch_id : Nat
  success : Bool
  processed_count : Nat
  processing_time_ms : Nat
  mock_tx_signature : String
  timestamp : Nat
deriving DecidableEq, Repr

/-- Settlement statistics (integer counters; the f64 running averages of the
source are not modelled). -/
structure SettlementStats where
  total_bets_processed : Nat
  total_batches_processed : Nat
  successful_batches : Nat
  failed_batches : Nat
  last_settlement_time : Option Nat
deriving DecidableEq, Repr

/-- Configured retry bound: SettlementEngine::new sets max_retries = 3. -/
def max_retries : Nat := 3

/-! ## Settlement pipeline operations -/

/-- Fast ingress, from SettlementEngine::enqueue_bet_fast: builds the
PendingBet that is sent onto the channel.  The fresh UUID and the wall-clock
reading are explicit parameters. -/
def enqueue_bet_fast (bet_response : CoinflipResponse) (request : CoinflipRequest)
    (freshId nowInstant : Nat) : PendingBet :=
  { bet_id := freshId
    user_seed := request.user_seed
    timestamp := request.timestamp
    node_id := bet_response.node_id
    heads := bet_response.heads
    vrf_proof := bet_response.proof.signature
    processing_time_ms := bet_response.processing_time_ms
    processed_at := nowInstant
    retry_count := 0 }

/-- Insert row built by the drainer flush, from the INSERT statement of
flush_batch_to_db: status starts at pending, terminal columns at NULL, and
retry_count is copied from the in-memory bet. -/
def rowOfBet (b : PendingBet) : DbBetRow :=
  { bet_id := b.bet_id
    user_seed := b.user_seed
    timestamp := b.timestamp
    node_id := b.node_id
    heads := b.heads
    vrf_proof := b.vrf_proof
    processing_time_ms := b.processing_time_ms
    processed_at := b.processed_at
    retry_count := b.retry_count
    status := .pending
    tx_signature := none
    settled_at := none
    failed_at := none
    error_message := none }

/-- Drainer flush, from SettlementEngine::flush_batch_to_db: one transaction
inserting every buffered bet as a pending row. -/
def flush_batch_to_db (db : Db) (batch : List PendingBet) : Db :=
  { db with bets := db.bets ++ batch.map rowOfBet }

/-- Retry-queue pop loop of collect_batch_from_db: pop from the front while
capacity remains and the queue is non-empty; returns (popped, remaining). -/
def popLoop : Nat → List PendingBet → List PendingBet × List PendingBet
  | 0, q => ([], q)
  | _ + 1, [] => ([], [])
  | n + 1, b :: q =>
    let r := popLoop n q
    (b :: r.1, r.2)

/-- Stable insertion step for ordering rows by processed_at. -/
def insertByTime (r : DbBetRow) : List DbBetRow → List DbBetRow
  | [] => [r]
  | x :: xs =>
    if x.processed_at ≤ r.processed_at then x :: insertByTime r xs
    else r :: x :: xs

/-- Model of the SQL ORDER BY processed_at ASC clause: a stable ascending
sort of the rows. -/
def sortByTime (rows : List DbBetRow) : List DbBetRow :=
  rows.foldl (fun acc r => insertByTime r acc) []

/-- Conversion of a fetched row back to an in-memory bet, from the row
mapping inside collect_batch_from_db. -/
def rowToPending (r : DbBetRow) : PendingBet :=
  { bet_id := r.bet_id
    user_seed := r.user_seed
    timestamp := r.timestamp
    node_id := r.node_id
    heads := r.heads
    vrf_proof := r.vrf_proof
    processing_time_ms := r.processing_time_ms
    processed_at := r.processed_at
    retry_count := r.retry_count }

/-- Batch collection, from SettlementEngine::collect_batch_from_db: first the
in-memory retry queue FIFO up to batch_size, then pending rows of the store
ordered by processed_at ascending, limited to the remaining capacity.
Returns (batch, remaining retry queue). -/
def collect_batch_from_db (batch_size : Nat) (retry_queue : List PendingBet)
    (db : Db) : List PendingBet × List PendingBet :=
  let popped := popLoop batch_size retry_queue
  let fromRetry := popped.1
  let dbPart :=
    if fromRetry.length < batch_size then
      ((sortByTime (db.bets.filter (fun r => decide (r.status = .pending)))).take
          (batch_size - fromRetry.length)).map rowToPending
    else []
  (fromRetry ++ dbPart, popped.2)

/-- Terminal-state field update used by mark_bet_permanently_failed. -/
def failMark (err : String) (nowInstant : Nat) (r : DbBetRow) : DbBetRow :=
  { r with status := .failed, error_message := some err, failed_at := some nowInstant }

/-- Permanent failure update, from SettlementEngine::mark_bet_permanently_failed:
a single UPDATE by bet_id setting status, error_message and failed_at. -/
def mark_bet_permanently_failed (db : Db) (bet : PendingBet) (err : String)
    (nowInstant : Nat) : Db :=
  { db with bets := db.bets.map (fun r =>
      if r.bet_id = bet.bet_id then failMark err nowInstant r else r) }

/-- Retry-count increment applied to each bet of a failed batch. -/
def bumpRetry (b : PendingBet) : PendingBet :=
  { b with retry_count := b.retry_count + 1 }

/-- Failure handling, from SettlementEngine::handle_batch_failure: bump every
bet's retry_count in memory, append those within max_retries to the retry
queue in order, and mark the rest permanently failed in the store.  Returns
the new retry queue and store. -/
def handle_batch_failure (maxRetries : Nat) (batch : List PendingBet)
    (error : VfError) (nowInstant : Nat) (retry_queue : List PendingBet)
    (db : Db) : List PendingBet × Db :=
  let bumped := batch.map bumpRetry
  let retryable := bumped.filter (fun b => decide (b.retry_count ≤ maxRetries))
  let permanently_failed := bumped.filter (fun b => decide (maxRetries < b.retry_count))
  (retry_queue ++ retryable,
   permanently_failed.foldl
     (fun d b => mark_bet_permanently_failed d b (vfErrorToString error) nowInstant) db)

/-- Statement executed inside the settle transaction. -/
inductive TxStmt where
  | settleBet (betId : Nat) (txSig : String) (settledAt : Nat)
  | insertBatchRow (row : BatchRow)
deriving DecidableEq, Repr

/-- Effect of one SQL statement of the settle transaction on the store. -/
def applyStmt (db : Db) : TxStmt → Db
  | .settleBet betId txSig settledAt =>
    { db with bets := db.bets.map (fun r =>
        if r.bet_id = betId then
          { r with status := .settled, tx_signature := some txSig,
                   settled_at := some settledAt }
        else r) }
  | .insertBatchRow row => { db with batches := db.batches ++ [row] }

/-- Sequential effect of a statement list (one committed transaction). -/
def runStmts (db : Db) (stmts : List TxStmt) : Db :=
  stmts.foldl applyStmt db

/-- settlement_batches row built by the INSERT of mark_batch_settled. -/
def batchRowOfResult (result : BatchResult) : BatchRow :=
  { batch_id := result.batch_id
    bet_count := result.processed_count
    processing_time_ms := result.processing_time_ms
    tx_signature := result.mock_tx_signature
    success := result.success
    created_at := result.timestamp }

/-- Statement list of SettlementEngine::mark_batch_settled, in source order:
one UPDATE per bet of the batch, then the settlement_batches INSERT. -/
def mark_batch_settled_stmts (batch : List PendingBet) (result : BatchResult) :
    List TxStmt :=
  batch.map (fun bet => .settleBet bet.bet_id result.mock_tx_signature result.timestamp)
    ++ [.insertBatchRow (batchRowOfResult result)]

/-- Settle path, from SettlementEngine::mark_batch_settled: the whole
statement list runs inside a single begin/commit transaction, so its effect
on the store is the atomic application of all statements. -/
def mark_batch_settled (db : Db) (batch : List PendingBet) (result : BatchResult) : Db :=
  runStmts db (mark_batch_settled_stmts batch result)

/-- Store states observable if the process crashes between transactions of a
program given as a list of transactions (each inner list commits atomically;
a crash inside a transaction rolls it back). -/
def commitPrefixStates (db : Db) : List (List TxStmt) → List Db
  | [] => [db]
  | tx :: txs => db :: commitPrefixStates (runStmts db tx) txs

/-- Startup crash recovery, from SettlementEngine::load_pending_bets_from_db:
rows with status pending and positive retry_count, ordered by processed_at,
re-materialised as in-memory bets for the retry queue. -/
def load_pending_bets_from_db (db : Db) : List PendingBet :=
  (sortByTime (db.bets.filter
      (fun r => decide (r.status = .pending ∧ 0 < r.retry_count)))).map rowToPending

/-- Stats update on batch success, from update_stats_success (counters only). -/
def update_stats_success (result : BatchResult) (stats : SettlementStats) :
    SettlementStats :=
  { stats with
      total_bets_processed := stats.total_bets_processed + result.processed_count
      total_batches_processed := stats.total_batches_processed + 1
      successful_batches := stats.successful_batches + 1
      last_settlement_time := some result.timestamp }

/-- Stats update on batch failure, from update_stats_failure. -/
def update_stats_failure (stats : SettlementStats) : SettlementStats :=
  { stats with
      total_batches_processed := stats.total_batches_processed + 1
      failed_batches := stats.failed_batches + 1 }

/-- One settlement tick, from SettlementEngine::process_settlement_batch.
The driver outcome (mock_settle_batch is random), the fresh batch UUID, the
wall clock and the elapsed milliseconds are explicit parameters.  Returns the
new retry queue, store and stats, plus a flag recording whether the
settlement driver was invoked. -/
def process_settlement_batch (batch_size : Nat) (driverResult : Except VfError String)
    (batchId nowInstant elapsedMs : Nat) (retry_queue : List PendingBet) (db : Db)
    (stats : SettlementStats) :
    List PendingBet × Db × SettlementStats × Bool :=
  let collected := collect_batch_from_db batch_size retry_queue db
  let batch := collected.1
  if batch.isEmpty then
    (collected.2, db, stats, false)
  else
    match driverResult with
    | .ok mock_tx_signature =>
      let batch_result : BatchResult :=
        { batch_id := batchId
          success := true
          processed_count := batch.length
          processing_time_ms := elapsedMs
          mock_tx_signature := mock_tx_signature
          timestamp := nowInstant }
      (collected.2, mark_batch_settled db batch batch_result,
       update_stats_success batch_result stats, true)
    | .error e =>
      let failed := handle_batch_failure max_retries batch e nowInstant collected.2 db
      (failed.1, failed.2, update_stats_failure stats, true)

/-! ## Pipeline state machine

Reachable states of the pipeline: the ingress channel, the in-memory retry
queue and the durable store, evolving through the background tasks.  Each
constructor is one source-level step with its nondeterminism (wall clock,
UUIDs, driver outcome, flush chunk size) existentially packed as arguments. -/

/-- Combined pipeline state. -/
structure PState where
  channel : List PendingBet
  retryq : List PendingBet
  db : Db
deriving DecidableEq, Repr

/-- Reachability of a pipeline state from startup with an empty store. -/
inductive Reach : PState → Prop
  | init : Reach ⟨[], [], ⟨[], []⟩⟩
  | enqueue (s : PState) (resp : CoinflipResponse) (req : CoinflipRequest)
      (freshId nowInstant : Nat) :
      Reach s →
      Reach { s with channel := s.channel ++ [enqueue_bet_fast resp req freshId nowInstant] }
  | flush (s : PState) (k : Nat) :
      Reach s →
      Reach { s with channel := s.channel.drop k,
                     db := flush_batch_to_db s.db (s.channel.take k) }
  | settle (s : PState) (batch_size : Nat) (driverResult : Except VfError String)
      (batchId nowInstant elapsedMs : Nat) (stats : SettlementStats) :
      Reach s →
      Reach { s with
        retryq := (process_settlement_batch batch_size driverResult batchId nowInstant
          elapsedMs s.retryq s.db stats).1,
        db := (process_settlement_batch batch_size driverResult batchId nowInstant
          elapsedMs s.retryq s.db stats).2.1 }
  | recover (s : PState) :
      Reach s →
      Reach { s with retryq := s.retryq ++ load_pending_bets_from_db s.db }

/-! ## Derived values of the VRF computation -/

/-- Seed commitment bytes: SHA-256 of the verifying key. -/
def vrfSeedCommit (C : Crypto) (E : VrfEngine) : List Nat :=
  C.sha256 E.verifyingKeyBytes

/-- The 64-byte challenge extracted from the extended transcript. -/
def vrfChallenge (C : Crypto) (E : VrfEngine) (req : CoinflipRequest) : List Nat :=
  C.challengeBytes (build_transcript E req ++ [("seed_commit", vrfSeedCommit C E)])
    "challenge"

/-- The Ed25519 signature over the challenge. -/
def vrfSignatureBytes (C : Crypto) (E : VrfEngine) (req : CoinflipRequest) : List Nat :=
  E.sign (vrfChallenge C E req)

/-- The u64 random value: little-endian of the first 8 bytes of the
SHA-256 of the signature. -/
def vrfRandom (C : Crypto) (E : VrfEngine) (req : CoinflipRequest) : Nat :=
  leNat ((C.sha256 (vrfSignatureBytes C E req)).take 8)

/-- The response produced on the happy path of process_coinflip. -/
def vrfResponse (C : Crypto) (E : VrfEngine) (req : CoinflipRequest)
    (now elapsedMs : Nat) : CoinflipResponse :=
  { node_id := node_pubkey E
    heads := vrfRandom C E req &&& 1 == 0
    proof :=
      { seed_commitment := base64Encode (vrfSeedCommit C E)
        vrf_output := base64Encode (natToLeBytes 8 (vrfRandom C E req))
        signature := base64Encode (vrfSignatureBytes C E req) }
    timestamp := now
    processing_time_ms := elapsedMs }

/-- Closed-form characterisation of process_coinflip. -/
theorem process_coinflip_eq (C : Crypto) (E : VrfEngine) (req : CoinflipRequest)
    (now elapsedMs : Nat) :
    process_coinflip C E req now elapsedMs =
      if req.user_seed.isEmpty then
        .error (.InvalidInput "User seed cannot be empty")
      else if 1024 < req.user_seed.length then
        .error (.InvalidInput "User seed too long")
      else .ok (vrfResponse C E req now elapsedMs) := by
  by_cases h1 : req.user_seed.isEmpty
  · simp [process_coinflip, validate_request, h1]
  · by_cases h2 : 1024 < req.user_seed.length
    · simp [process_coinflip, validate_request, h1, h2]
    · simp [process_coinflip, validate_request, generate_vrf, vrfResponse,
        vrfSeedCommit, vrfChallenge, vrfSignatureBytes, vrfRandom, h1, h2]

/-- The four deterministic output fields of a response. -/
def coreFields (r : CoinflipResponse) : Bool × String × String × String :=
  (r.heads, r.proof.seed_commitment, r.proof.vrf_output, r.proof.signature)

/-! ## Concrete primitive instances

Toy instances of the crypto contracts, used to instantiate the parametric
theorems on executable inputs. -/

/-- Concrete hash and challenge functions satisfying the size contracts. -/
def CryptoToy : Crypto :=
  { sha256 := fun _ => List.range 32
    challengeBytes := fun _ _ => List.replicate 64 2 }

/-- Concrete signature scheme satisfying SignatureScheme. -/
def EngineToy : VrfEngine :=
  { verifyingKeyBytes := List.replicate 32 7
    sign := fun _ => List.replicate 64 3
    edVerify := fun _ s => s == List.replicate 64 3 }

theorem sha256Bytes_toy : Sha256Bytes CryptoToy := by
  intro bs
  constructor
  · show (List.range 32).length = 32
    decide
  · show ∀ b ∈ List.range 32, b < 256
    decide

theorem signatureScheme_toy : SignatureScheme EngineToy := by
  intro m
  refine ⟨?_, ?_, ?_⟩
  · show (List.replicate 64 3).length = 64
    decide
  · show ∀ b ∈ List.replicate 64 3, b < 256
    decide
  · show (List.replicate 64 3 == List.replicate 64 3) = true
    decide

deriving instance DecidableEq for Except

/-- Request used for concrete instantiations. -/
def reqToy : CoinflipRequest := ⟨[104, 105], 1700000000⟩

/-- Response produced by the toy instances on reqToy. -/
def respToy : CoinflipResponse :=
  { node_id := "BwcHBwcHBwcHBwcHBwcHBwcHBwcHBwcHBwcHBwcHBwc="
    heads := true
    proof :=
      { seed_commitment := "AAECAwQFBgcICQoLDA0ODxAREhMUFRYXGBkaGxwdHh8="
        vrf_output := "AAECAwQFBgc="
        signature := "AwMDAwMDAwMDAwMDAwMDAwMDAwMDAwMDAwMDAwMDAwMDAwMDAwMDAwMDAwMDAwMDAwMDAwMDAwMDAwMDAwMDAw==" }
    timestamp := 5
    processing_time_ms := 7 }

/-! ## Claim C1 -/

/-- C1: for every request with a non-empty user_seed of at most 1024 bytes
and every engine key (any keypair satisfying the Ed25519 contract, any
SHA-256 satisfying its size contract), process_coinflip succeeds and
verify_proof accepts the returned proof for the same request. -/
theorem claim_C1_verify_roundtrip (C : Crypto) (E : VrfEngine)
    (hsha : Sha256Bytes C) (hsig : SignatureScheme E) (req : CoinflipRequest)
    (hne : req.user_seed ≠ []) (hlen : req.user_seed.length ≤ 1024)
    (now elapsedMs : Nat) :
    ∃ resp, process_coinflip C E req now elapsedMs = .ok resp ∧
      verify_proof C E resp.proof req = .ok true := by
  refine ⟨vrfResponse C E req now elapsedMs, ?_, ?_⟩
  · rw [process_coinflip_eq]
    have h1 : req.user_seed.isEmpty = false := by
      simpa [List.isEmpty_iff] using hne
    have h2 : ¬ 1024 < req.user_seed.length := by omega
    simp [h1, h2]
  · have hd1 : base64Decode (base64Encode (vrfSeedCommit C E)) =
        some (vrfSeedCommit C E) :=
      base64Decode_base64Encode _ (hsha E.verifyingKeyBytes).2
    have hd2 : base64Decode (base64Encode (vrfSignatureBytes C E req)) =
        some (vrfSignatureBytes C E req) :=
      base64Decode_base64Encode _ (hsig (vrfChallenge C E req)).2.1
    have hlen64 : (vrfSignatureBytes C E req).length = 64 :=
      (hsig (vrfChallenge C E req)).1
    have hver : E.edVerify (vrfChallenge C E req) (vrfSignatureBytes C E req) = true :=
      (hsig (vrfChallenge C E req)).2.2
    simp only [verify_proof, vrfResponse]
    rw [hd1, hd2]
    simp only [hlen64]
    simp only [vrfChallenge] at hver
    simp [hver]

/-- C1 witness: the round trip evaluated at the toy instances. -/
theorem claim_C1_witness :
    ∃ resp, process_coinflip CryptoToy EngineToy reqToy 5 7 = .ok resp ∧
      verify_proof CryptoToy EngineToy resp.proof reqToy = .ok true :=
  claim_C1_verify_roundtrip CryptoToy EngineToy sha256Bytes_toy signatureScheme_toy
    reqToy (by decide) (by decide) 5 7

/-! ## Claim C2 -/

/-- C2: for a fixed key and fixed request, any two calls of process_coinflip
return byte-for-byte identical heads, seed_commitment, vrf_output and
signature; the wall-clock readings (response timestamp and elapsed
milliseconds), modelled as the explicit inputs now and elapsedMs, do not
influence those four fields. -/
theorem claim_C2_determinism (C : Crypto) (E : VrfEngine) (req : CoinflipRequest)
    (now1 elapsed1 now2 elapsed2 : Nat) :
    (process_coinflip C E req now1 elapsed1).map coreFields =
      (process_coinflip C E req now2 elapsed2).map coreFields := by
  rw [process_coinflip_eq, process_coinflip_eq]
  by_cases h1 : req.user_seed.isEmpty
  · simp [h1]
  · by_cases h2 : 1024 < req.user_seed.length
    · simp [h1, h2]
    · simp [h1, h2, Except.map, coreFields, vrfResponse]

/-! ## Claim C3 -/

/-- C3: on every accepted request the response satisfies the output
formulas: heads is true exactly when the little-endian u64 of the first
8 bytes of SHA-256 of the signature bytes has low bit zero, vrf_output is the
base64 of the 8 little-endian bytes of that value, and seed_commitment is the
base64 of SHA-256 of the verifying key, hence identical across all proofs of
the same engine. -/
theorem claim_C3_output_formulas (C : Crypto) (E : VrfEngine)
    (_hsha : Sha256Bytes C) (hsig : SignatureScheme E) (req : CoinflipRequest)
    (now elapsedMs : Nat) (resp : CoinflipResponse)
    (hok : process_coinflip C E req now elapsedMs = .ok resp) :
    ∃ sigBytes, base64Decode resp.proof.signature = some sigBytes ∧
      (resp.heads = true ↔ leNat ((C.sha256 sigBytes).take 8) &&& 1 = 0) ∧
      resp.proof.vrf_output =
        base64Encode (natToLeBytes 8 (leNat ((C.sha256 sigBytes).take 8))) ∧
      resp.proof.seed_commitment = base64Encode (C.sha256 E.verifyingKeyBytes) ∧
      (∀ req2 now2 elapsed2 resp2,
        process_coinflip C E req2 now2 elapsed2 = .ok resp2 →
          resp2.proof.seed_commitment = resp.proof.seed_commitment) := by
  rw [process_coinflip_eq] at hok
  by_cases h1 : req.user_seed.isEmpty
  · simp [h1] at hok
  · by_cases h2 : 1024 < req.user_seed.length
    · simp [h1, h2] at hok
    · simp only [h1, h2, if_false, Bool.false_eq_true, if_neg, Except.ok.injEq] at hok
      subst hok
      refine ⟨vrfSignatureBytes C E req, ?_, ?_, rfl, rfl, ?_⟩
      · exact base64Decode_base64Encode _ (hsig (vrfChallenge C E req)).2.1
      · simp [vrfResponse, vrfRandom, vrfSignatureBytes]
      · intro req2 now2 elapsed2 resp2 hok2
        rw [process_coinflip_eq] at hok2
        by_cases h3 : req2.user_seed.isEmpty
        · simp [h3] at hok2
        · by_cases h4 : 1024 < req2.user_seed.length
          · simp [h3, h4] at hok2
          · simp only [h3, h4, if_false, Bool.false_eq_true, if_neg,
              Except.ok.injEq] at hok2
            subst hok2
            rfl

/-- C3 witness: the formulas evaluated at the toy instances. -/
theorem claim_C3_witness :
    ∃ sigBytes, base64Decode respToy.proof.signature = some sigBytes ∧
      (respToy.heads = true ↔
        leNat ((CryptoToy.sha256 sigBytes).take 8) &&& 1 = 0) ∧
      respToy.proof.vrf_output =
        base64Encode (natToLeBytes 8 (leNat ((CryptoToy.sha256 sigBytes).take 8))) ∧
      respToy.proof.seed_commitment =
        base64Encode (CryptoToy.sha256 EngineToy.verifyingKeyBytes) ∧
      (∀ req2 now2 elapsed2 resp2,
        process_coinflip CryptoToy EngineToy req2 now2 elapsed2 = .ok resp2 →
          resp2.proof.seed_commitment = respToy.proof.seed_commitment) :=
  claim_C3_output_formulas CryptoToy EngineToy sha256Bytes_toy signatureScheme_toy
    reqToy 5 7 respToy (by decide)

/-! ## Claim C6 -/

/-- C6: verify_proof fails with InvalidProof when the seed commitment or the
signature is not valid base64, when the decoded signature is not exactly
64 bytes, or when Ed25519 verification of the derived challenge fails; in
every remaining case it returns Ok true, and it never returns Ok false. -/
theorem claim_C6_verify_errors (C : Crypto) (E : VrfEngine) (p : VrfProof)
    (req : CoinflipRequest) :
    (verify_proof C E p req ≠ .ok false) ∧
    (verify_proof C E p req = .ok true ↔
      ∃ sc sb, base64Decode p.seed_commitment = some sc ∧
        base64Decode p.signature = some sb ∧ sb.length = 64 ∧
        E.edVerify (C.challengeBytes
          (build_transcript E req ++ [("seed_commit", sc)]) "challenge") sb = true) ∧
    (∀ e, verify_proof C E p req = .error e → ∃ msg, e = .InvalidProof msg) ∧
    (base64Decode p.seed_commitment = none →
      verify_proof C E p req = .error (.InvalidProof "Invalid seed commitment encoding")) ∧
    (∀ sc, base64Decode p.seed_commitment = some sc →
      base64Decode p.signature = none →
      verify_proof C E p req = .error (.InvalidProof "Invalid signature encoding")) ∧
    (∀ sc sb, base64Decode p.seed_commitment = some sc →
      base64Decode p.signature = some sb → sb.length ≠ 64 →
      verify_proof C E p req = .error (.InvalidProof "Invalid signature length")) ∧
    (∀ sc sb, base64Decode p.seed_commitment = some sc →
      base64Decode p.signature = some sb → sb.length = 64 →
      E.edVerify (C.challengeBytes
        (build_transcript E req ++ [("seed_commit", sc)]) "challenge") sb = false →
      verify_proof C E p req = .error (.InvalidProof "Signature verification failed")) := by
  rcases h1 : base64Decode p.seed_commitment with _ | sc
  · have hv : verify_proof C E p req =
        .error (.InvalidProof "Invalid seed commitment encoding") := by
      simp [verify_proof, h1]
    refine ⟨by simp [hv], ⟨?_, ?_⟩, ?_, fun _ => hv, ?_, ?_, ?_⟩
    · intro h
      rw [hv] at h
      cases h
    · rintro ⟨sc, sb, hsc, -⟩
      cases hsc
    · intro e he
      rw [hv] at he
      injection he with h
      exact ⟨_, h.symm⟩
    · intro sc hsc
      cases hsc
    · intro sc sb hsc
      cases hsc
    · intro sc sb hsc
      cases hsc
  · rcases h2 : base64Decode p.signature with _ | sb
    · have hv : verify_proof C E p req =
          .error (.InvalidProof "Invalid signature encoding") := by
        simp [verify_proof, h1, h2]
      refine ⟨by simp [hv], ⟨?_, ?_⟩, ?_, ?_, fun _ _ _ => hv, ?_, ?_⟩
      · intro h
        rw [hv] at h
        cases h
      · rintro ⟨sc', sb', -, hsb, -⟩
        cases hsb
      · intro e he
        rw [hv] at he
        injection he with h
        exact ⟨_, h.symm⟩
      · intro h
        cases h
      · intro sc' sb' _ hsb
        cases hsb
      · intro sc' sb' _ hsb
        cases hsb
    · by_cases h3 : sb.length = 64
      · by_cases h4 : E.edVerify (C.challengeBytes
            (build_transcript E req ++ [("seed_commit", sc)]) "challenge") sb = true
        · have hv : verify_proof C E p req = .ok true := by
            simp [verify_proof, h1, h2, h3, h4]
          refine ⟨by simp [hv], ⟨?_, fun _ => hv⟩, ?_, ?_, ?_, ?_, ?_⟩
          · exact fun _ => ⟨sc, sb, rfl, rfl, h3, h4⟩
          · intro e he
            rw [hv] at he
            cases he
          · intro h
            cases h
          · intro sc' hsc' h
            cases h
          · intro sc' sb' hsc' hsb' hne
            injection hsb' with e2
            subst e2
            exact absurd h3 hne
          · intro sc' sb' hsc' hsb' _ hfalse
            injection hsc' with e1
            injection hsb' with e2
            subst e1
            subst e2
            rw [h4] at hfalse
            cases hfalse
        · have hv : verify_proof C E p req =
              .error (.InvalidProof "Signature verification failed") := by
            simp [verify_proof, h1, h2, h3]
            simp only [Bool.not_eq_true] at h4
            exact h4
          refine ⟨by simp [hv], ⟨?_, ?_⟩, ?_, ?_, ?_, ?_, fun _ _ _ _ _ _ => hv⟩
          · intro h
            rw [hv] at h
            cases h
          · rintro ⟨sc', sb', hsc', hsb', -, hver⟩
            injection hsc' with e1
            injection hsb' with e2
            subst e1
            subst e2
            exact absurd hver h4
          · intro e he
            rw [hv] at he
            injection he with h
            exact ⟨_, h.symm⟩
          · intro h
            cases h
          · intro sc' hsc' h
            cases h
          · intro sc' sb' hsc' hsb' hne
            injection hsb' with e2
            subst e2
            exact absurd h3 hne
      · have hv : verify_proof C E p req =
            .error (.InvalidProof "Invalid signature length") := by
          simp [verify_proof, h1, h2, h3]
        refine ⟨by simp [hv], ⟨?_, ?_⟩, ?_, ?_, ?_, fun _ _ _ _ _ => hv, ?_⟩
        · intro h
          rw [hv] at h
          cases h
        · rintro ⟨sc', sb', hsc', hsb', hlen, -⟩
          injection hsb' with e2
          subst e2
          exact absurd hlen h3
        · intro e he
          rw [hv] at he
          injection he with h
          exact ⟨_, h.symm⟩
        · intro h
          cases h
        · intro sc' hsc' h
          cases h
        · intro sc' sb' hsc' hsb' hlen _
          injection hsb' with e2
          subst e2
          exact absurd hlen h3

/-- C6 witness: a proof whose seed commitment is not base64 is rejected with
the commitment-encoding error at the toy instances. -/
theorem claim_C6_witness :
    verify_proof CryptoToy EngineToy ⟨"!!", "x", "y"⟩ reqToy =
      .error (.InvalidProof "Invalid seed commitment encoding") :=
  (claim_C6_verify_errors CryptoToy EngineToy ⟨"!!", "x", "y"⟩ reqToy).2.2.2.1
    (by decide)

/-! ## Claim C8 -/

/-- C8: process_coinflip fails with InvalidInput exactly when the user seed
is empty or longer than 1024 bytes, its only error kind is InvalidInput, and
on such requests the handler returns 500 without invoking the settlement
enqueue. -/
theorem claim_C8_validation (C : Crypto) (E : VrfEngine) (req : CoinflipRequest)
    (now elapsedMs handlerElapsedMs : Nat) :
    ((∃ m, process_coinflip C E req now elapsedMs = .error (.InvalidInput m)) ↔
      (req.user_seed = [] ∨ 1024 < req.user_seed.length)) ∧
    (∀ e, process_coinflip C E req now elapsedMs = .error e →
      ∃ m, e = .InvalidInput m) ∧
    ((req.user_seed = [] ∨ 1024 < req.user_seed.length) →
      (coinflip_handler C E req now elapsedMs handlerElapsedMs).2 = false) := by
  have heq := process_coinflip_eq C E req now elapsedMs
  by_cases h1 : req.user_seed.isEmpty
  · have h1' : req.user_seed = [] := by simpa [List.isEmpty_iff] using h1
    rw [if_pos h1] at heq
    refine ⟨⟨fun _ => Or.inl h1', fun _ => ⟨_, heq⟩⟩, ?_, ?_⟩
    · intro e he
      rw [heq] at he
      exact ⟨_, by injection he with h; exact h.symm⟩
    · intro _
      simp [coinflip_handler, heq]
  · have h1' : req.user_seed ≠ [] := by simpa [List.isEmpty_iff] using h1
    rw [if_neg h1] at heq
    by_cases h2 : 1024 < req.user_seed.length
    · rw [if_pos h2] at heq
      refine ⟨⟨fun _ => Or.inr h2, fun _ => ⟨_, heq⟩⟩, ?_, ?_⟩
      · intro e he
        rw [heq] at he
        exact ⟨_, by injection he with h; exact h.symm⟩
      · intro _
        simp [coinflip_handler, heq]
    · rw [if_neg h2] at heq
      refine ⟨⟨?_, ?_⟩, ?_, ?_⟩
      · rintro ⟨m, hm⟩
        rw [heq] at hm
        cases hm
      · rintro (h | h)
        · exact absurd h h1'
        · exact absurd h h2
      · intro e he
        rw [heq] at he
        cases he
      · rintro (h | h)
        · exact absurd h h1'
        · exact absurd h h2

/-- C8 witness: the empty-seed request is rejected with InvalidInput and the
handler does not enqueue. -/
theorem claim_C8_witness :
    (coinflip_handler CryptoToy EngineToy ⟨[], 0⟩ 1 2 3).2 = false ∧
    (∃ m, process_coinflip CryptoToy EngineToy ⟨[], 0⟩ 1 2 =
      .error (.InvalidInput m)) :=
  ⟨(claim_C8_validation CryptoToy EngineToy ⟨[], 0⟩ 1 2 3).2.2 (Or.inl rfl),
   (claim_C8_validation CryptoToy EngineToy ⟨[], 0⟩ 1 2 3).1.mpr (Or.inl rfl)⟩

/-! ## Claim C9 -/

/-- C9: verify_proof never reads the proof's vrf_output field: replacing it
by arbitrary text leaves the verification result unchanged, so a proof whose
claimed random value has been swapped still verifies exactly as before. -/
theorem claim_C9_vrf_output_ignored (C : Crypto) (E : VrfEngine)
    (req : CoinflipRequest) (p : VrfProof) (s : String) :
    verify_proof C E
        { seed_commitment := p.seed_commitment, vrf_output := s,
          signature := p.signature } req =
      verify_proof C E p req := rfl

/-! ## Settlement lemmas -/

/-- Terminal-state field update performed by the settle UPDATE statement. -/
def settleMark (txSig : String) (settledAt : Nat) (r : DbBetRow) : DbBetRow :=
  { r with status := .settled, tx_signature := some txSig,
           settled_at := some settledAt }

theorem popLoop_eq (n : Nat) : ∀ q, popLoop n q = (q.take n, q.drop n) := by
  induction n with
  | zero => intro q; rfl
  | succ n ih =>
    intro q
    cases q with
    | nil => rfl
    | cons b bq => simp [popLoop, ih bq]

theorem collect_batch_eq (size : Nat) (q : List PendingBet) (db : Db) :
    collect_batch_from_db size q db =
      (q.take size ++
        ((sortByTime (db.bets.filter (fun r => decide (r.status = .pending)))).map
            rowToPending).take (size - (q.take size).length),
       q.drop size) := by
  simp only [collect_batch_from_db, popLoop_eq]
  by_cases h : (q.take size).length < size
  · rw [if_pos h, List.map_take]
  · rw [if_neg h]
    have hlen := List.length_take size q
    have hz : size - (q.take size).length = 0 := by omega
    rw [hz]
    simp

theorem foldl_markFailed_batches (err : String) (t : Nat) :
    ∀ (fs : List PendingBet) (db : Db),
      (fs.foldl (fun d b => mark_bet_permanently_failed d b err t) db).batches =
        db.batches := by
  intro fs
  induction fs with
  | nil => intro db; rfl
  | cons b fs ih =>
    intro db
    rw [List.foldl_cons, ih]
    rfl

theorem foldl_markFailed_bets (err : String) (t : Nat) :
    ∀ (fs : List PendingBet) (db : Db),
      (fs.foldl (fun d b => mark_bet_permanently_failed d b err t) db).bets =
        db.bets.map (fun r =>
          if fs.any (fun b => b.bet_id == r.bet_id) then failMark err t r else r) := by
  intro fs
  induction fs with
  | nil =>
    intro db
    simp
  | cons b fs ih =>
    intro db
    rw [List.foldl_cons, ih]
    show (db.bets.map (fun r =>
        if r.bet_id = b.bet_id then failMark err t r else r)).map _ = _
    rw [List.map_map]
    apply List.map_congr_left
    intro r _
    by_cases hid : r.bet_id = b.bet_id
    · simp [Function.comp, hid, failMark, List.any_cons]
    · have hb : (b.bet_id == r.bet_id) = false := by
        simp [Ne.symm hid]
      simp [Function.comp, hid, hb, List.any_cons]

theorem runStmts_settle (sig : String) (ts : Nat) :
    ∀ (batch : List PendingBet) (db : Db),
      runStmts db (batch.map (fun bet => TxStmt.settleBet bet.bet_id sig ts)) =
        { db with bets := db.bets.map (fun r =>
            if batch.any (fun b => b.bet_id == r.bet_id) then settleMark sig ts r
            else r) } := by
  intro batch
  induction batch with
  | nil =>
    intro db
    simp [runStmts]
  | cons b batch ih =>
    intro db
    show runStmts (applyStmt db (TxStmt.settleBet b.bet_id sig ts)) _ = _
    rw [ih]
    show ({ db with bets := (db.bets.map (fun r =>
        if r.bet_id = b.bet_id then settleMark sig ts r else r)).map _ } : Db) = _
    rw [List.map_map]
    congr 1
    apply List.map_congr_left
    intro r _
    by_cases hid : r.bet_id = b.bet_id
    · simp [Function.comp, hid, settleMark, List.any_cons]
    · have hb : (b.bet_id == r.bet_id) = false := by
        simp [Ne.symm hid]
      simp [Function.comp, hid, hb, List.any_cons]

theorem mark_batch_settled_eq (db : Db) (batch : List PendingBet) (res : BatchResult) :
    mark_batch_settled db batch res =
      { bets := db.bets.map (fun r =>
          if batch.any (fun b => b.bet_id == r.bet_id) then
            settleMark res.mock_tx_signature res.timestamp r
          else r),
        batches := db.batches ++ [batchRowOfResult res] } := by
  show runStmts db (mark_batch_settled_stmts batch res) = _
  rw [mark_batch_settled_stmts]
  show List.foldl applyStmt db (_ ++ [TxStmt.insertBatchRow (batchRowOfResult res)]) = _
  rw [List.foldl_append]
  rw [show List.foldl applyStmt db (batch.map
      (fun bet => TxStmt.settleBet bet.bet_id res.mock_tx_signature res.timestamp)) =
      runStmts db (batch.map
        (fun bet => TxStmt.settleBet bet.bet_id res.mock_tx_signature res.timestamp))
    from rfl]
  rw [runStmts_settle]
  rfl

/-- Every row of the store carries retry_count = 0. -/
def RowsRetryZero (db : Db) : Prop :=
  ∀ r ∈ db.bets, r.retry_count = 0

theorem flush_preserves_retry_zero (db : Db) (batch : List PendingBet)
    (hdb : RowsRetryZero db) (hb : ∀ b ∈ batch, b.retry_count = 0) :
    RowsRetryZero (flush_batch_to_db db batch) := by
  intro r hr
  rw [flush_batch_to_db] at hr
  simp only [List.mem_append] at hr
  rcases hr with hr | hr
  · exact hdb r hr
  · rcases List.mem_map.mp hr with ⟨b, hbmem, rfl⟩
    exact hb b hbmem

theorem mark_batch_settled_preserves_retry_zero (db : Db) (batch : List PendingBet)
    (res : BatchResult) (hdb : RowsRetryZero db) :
    RowsRetryZero (mark_batch_settled db batch res) := by
  intro r hr
  rw [mark_batch_settled_eq] at hr
  rcases List.mem_map.mp hr with ⟨r0, hr0, rfl⟩
  have := hdb r0 hr0
  split <;> simpa [settleMark]

theorem handle_batch_failure_preserves_retry_zero (m : Nat) (batch : List PendingBet)
    (e : VfError) (t : Nat) (q : List PendingBet) (db : Db) (hdb : RowsRetryZero db) :
    RowsRetryZero (handle_batch_failure m batch e t q db).2 := by
  intro r hr
  rw [show (handle_batch_failure m batch e t q db).2 =
      ((batch.map bumpRetry).filter (fun b => decide (m < b.retry_count))).foldl
        (fun d b => mark_bet_permanently_failed d b (vfErrorToString e) t) db
    from rfl] at hr
  rw [foldl_markFailed_bets] at hr
  rcases List.mem_map.mp hr with ⟨r0, hr0, rfl⟩
  have := hdb r0 hr0
  split <;> simpa [failMark]

theorem process_batch_preserves_retry_zero (batch_size : Nat)
    (driverResult : Except VfError String) (batchId nowInstant elapsedMs : Nat)
    (q : List PendingBet) (db : Db) (stats : SettlementStats)
    (hdb : RowsRetryZero db) :
    RowsRetryZero (process_settlement_batch batch_size driverResult batchId
      nowInstant elapsedMs q db stats).2.1 := by
  rw [process_settlement_batch.eq_def]
  by_cases hie : (collect_batch_from_db batch_size q db).1.isEmpty
  · simpa [hie] using hdb
  · cases driverResult with
    | ok sig =>
      simp only [hie, Bool.false_eq_true, if_neg, if_false]
      exact mark_batch_settled_preserves_retry_zero _ _ _ hdb
    | error e =>
      simp only [hie, Bool.false_eq_true, if_neg, if_false]
      exact handle_batch_failure_preserves_retry_zero _ _ _ _ _ _ hdb

theorem reach_retry_zero (s : PState) (h : Reach s) :
    (∀ b ∈ s.channel, b.retry_count = 0) ∧ RowsRetryZero s.db := by
  induction h with
  | init =>
    constructor
    · intro b hb
      cases hb
    · intro r hr
      cases hr
  | enqueue s resp req freshId nowInstant _ ih =>
    constructor
    · intro b hb
      rcases List.mem_append.mp hb with hb | hb
      · exact ih.1 b hb
      · rcases List.mem_singleton.mp hb with rfl
        rfl
    · exact ih.2
  | flush s k _ ih =>
    constructor
    · intro b hb
      exact ih.1 b (List.drop_subset k s.channel hb)
    · exact flush_preserves_retry_zero _ _ ih.2
        (fun b hb => ih.1 b (List.take_subset k s.channel hb))
  | settle s batch_size driverResult batchId nowInstant elapsedMs stats _ ih =>
    exact ⟨ih.1, process_batch_preserves_retry_zero _ _ _ _ _ _ _ _ ih.2⟩
  | recover s _ ih =>
    exact ⟨ih.1, ih.2⟩

theorem load_pending_empty (db : Db) (hdb : RowsRetryZero db) :
    load_pending_bets_from_db db = [] := by
  have hfilter : db.bets.filter
      (fun r => decide (r.status = .pending ∧ 0 < r.retry_count)) = [] := by
    rw [List.filter_eq_nil_iff]
    intro r hr
    have := hdb r hr
    simp [this]
  rw [load_pending_bets_from_db, hfilter]
  rfl

/-! ## Claim C4 -/

/-- C4: on a failed batch, every bet's retry_count is bumped by one in
memory; bets whose bumped count stays at or below max_retries = 3 are
appended in order to the retry queue; bets exceeding it are updated in the
store to status failed with the error text and a failed_at instant; no
settlement_batches row is inserted; and a single bet starting at
retry_count 0 survives three failures in the retry queue and is marked
failed exactly on the fourth. -/
theorem claim_C4_failure_retry (batch : List PendingBet) (e : VfError)
    (nowInstant : Nat) (q : List PendingBet) (db : Db) (b0 : PendingBet)
    (hb0 : b0.retry_count = 0) :
    (handle_batch_failure max_retries batch e nowInstant q db).1 =
      q ++ (batch.map bumpRetry).filter (fun b => decide (b.retry_count ≤ 3)) ∧
    (handle_batch_failure max_retries batch e nowInstant q db).2.batches =
      db.batches ∧
    (∀ b ∈ batch, 3 < b.retry_count + 1 →
      ∀ r ∈ (handle_batch_failure max_retries batch e nowInstant q db).2.bets,
        r.bet_id = b.bet_id →
          r.status = .failed ∧ r.error_message = some (vfErrorToString e) ∧
          r.failed_at = some nowInstant) ∧
    (handle_batch_failure max_retries batch e nowInstant q db).2.bets =
      db.bets.map (fun r =>
        if ((batch.map bumpRetry).filter
            (fun b => decide (3 < b.retry_count))).any
            (fun b => b.bet_id == r.bet_id) then
          failMark (vfErrorToString e) nowInstant r
        else r) ∧
    handle_batch_failure max_retries [b0] e nowInstant [] db =
      ([{ b0 with retry_count := 1 }], db) ∧
    handle_batch_failure max_retries [{ b0 with retry_count := 1 }] e nowInstant [] db =
      ([{ b0 with retry_count := 2 }], db) ∧
    handle_batch_failure max_retries [{ b0 with retry_count := 2 }] e nowInstant [] db =
      ([{ b0 with retry_count := 3 }], db) ∧
    (handle_batch_failure max_retries [{ b0 with retry_count := 3 }] e nowInstant
      [] db).1 = [] ∧
    (handle_batch_failure max_retries [{ b0 with retry_count := 3 }] e nowInstant
      [] db).2 =
      mark_bet_permanently_failed db { b0 with retry_count := 4 }
        (vfErrorToString e) nowInstant := by
  have hD : (handle_batch_failure max_retries batch e nowInstant q db).2.bets =
      db.bets.map (fun r =>
        if ((batch.map bumpRetry).filter
            (fun b => decide (3 < b.retry_count))).any
            (fun b => b.bet_id == r.bet_id) then
          failMark (vfErrorToString e) nowInstant r
        else r) :=
    foldl_markFailed_bets _ _ _ _
  refine ⟨rfl, foldl_markFailed_batches _ _ _ _, ?_, hD, ?_, ?_, ?_, ?_, ?_⟩
  · intro b hb hgt r hr hid
    rw [hD] at hr
    rcases List.mem_map.mp hr with ⟨r0, hr0, rfl⟩
    have hid0 : r0.bet_id = b.bet_id := by
      split at hid
      · simpa [failMark] using hid
      · exact hid
    have hcond : ((batch.map bumpRetry).filter
        (fun b' => decide (3 < b'.retry_count))).any
        (fun b' => b'.bet_id == r0.bet_id) = true := by
      rw [List.any_eq_true]
      refine ⟨bumpRetry b, ?_, ?_⟩
      · rw [List.mem_filter]
        refine ⟨List.mem_map_of_mem _ hb, ?_⟩
        simp [bumpRetry]
        omega
      · simp [bumpRetry, hid0]
    simp [hcond, failMark]
  · simp [handle_batch_failure, bumpRetry, max_retries, hb0]
  · simp [handle_batch_failure, bumpRetry, max_retries, hb0]
  · simp [handle_batch_failure, bumpRetry, max_retries, hb0]
  · simp [handle_batch_failure, bumpRetry, max_retries]
  · simp [handle_batch_failure, bumpRetry, max_retries]

/-- Bet used for concrete settlement instantiations. -/
def betW : PendingBet := ⟨1, [104], 2, "n", true, "sig", 3, 4, 0⟩

/-- Store used for concrete settlement instantiations. -/
def dbW : Db := ⟨[rowOfBet betW], []⟩

/-- Driver error used for concrete settlement instantiations. -/
def errW : VfError := .InvalidInput "Mock settlement timeout"

/-- Batch result used for concrete settlement instantiations. -/
def resW : BatchResult := ⟨5, true, 1, 6, "tx", 7⟩

/-- Stats record used for concrete settlement instantiations. -/
def statsW : SettlementStats := ⟨0, 0, 0, 0, none⟩

/-- C4 witness: the single-bet retry lifecycle evaluated on concrete data. -/
theorem claim_C4_witness :
    handle_batch_failure max_retries [betW] errW 9 [] dbW =
      ([{ betW with retry_count := 1 }], dbW) ∧
    (handle_batch_failure max_retries [{ betW with retry_count := 3 }] errW 9 []
      dbW).1 = [] ∧
    (handle_batch_failure max_retries [{ betW with retry_count := 3 }] errW 9 []
      dbW).2 =
      mark_bet_permanently_failed dbW { betW with retry_count := 4 }
        (vfErrorToString errW) 9 := by
  have h := claim_C4_failure_retry [betW] errW 9 [] dbW betW rfl
  exact ⟨h.2.2.2.2.1, h.2.2.2.2.2.2.2.1, h.2.2.2.2.2.2.2.2⟩

/-! ## Claim C5 -/

/-- C5: mark_batch_settled applies every per-row settle update and the
settlement_batches insertion (with success = true) as one transaction: its
whole statement list commits atomically, so a crash exposes either the
initial store or the fully settled one, never a partial batch. -/
theorem claim_C5_settle_transactional (db : Db) (batch : List PendingBet)
    (res : BatchResult) (hsucc : res.success = true) :
    (mark_batch_settled db batch res).bets = db.bets.map (fun r =>
        if batch.any (fun b => b.bet_id == r.bet_id) then
          settleMark res.mock_tx_signature res.timestamp r
        else r) ∧
    (mark_batch_settled db batch res).batches =
      db.batches ++ [batchRowOfResult res] ∧
    (batchRowOfResult res).success = true ∧
    (∀ s ∈ commitPrefixStates db [mark_batch_settled_stmts batch res],
      s = db ∨ s = mark_batch_settled db batch res) ∧
    (∀ size sig batchId nowInstant elapsedMs q stats,
      (collect_batch_from_db size q db).1 ≠ [] →
      (process_settlement_batch size (.ok sig) batchId nowInstant elapsedMs q db
          stats).2.1 =
        mark_batch_settled db (collect_batch_from_db size q db).1
          { batch_id := batchId, success := true,
            processed_count := (collect_batch_from_db size q db).1.length,
            processing_time_ms := elapsedMs, mock_tx_signature := sig,
            timestamp := nowInstant }) := by
  refine ⟨?_, ?_, ?_, ?_, ?_⟩
  · rw [mark_batch_settled_eq]
  · rw [mark_batch_settled_eq]
  · simp [batchRowOfResult, hsucc]
  · intro s hs
    simp only [commitPrefixStates, List.mem_cons, List.not_mem_nil,
      or_false] at hs
    rcases hs with rfl | rfl
    · exact Or.inl rfl
    · exact Or.inr rfl
  · intro size sig batchId nowInstant elapsedMs q stats hne
    have hie : (collect_batch_from_db size q db).1.isEmpty = false := by
      rcases hcol : (collect_batch_from_db size q db).1 with _ | ⟨a, l⟩
      · exact absurd hcol hne
      · rfl
    rw [process_settlement_batch.eq_def]
    simp only [hie, Bool.false_eq_true, if_false]

/-- C5 witness: the atomic settle applied to a concrete one-bet batch. -/
theorem claim_C5_witness :
    (mark_batch_settled dbW [betW] resW).batches =
      dbW.batches ++ [batchRowOfResult resW] ∧
    (∀ s ∈ commitPrefixStates dbW [mark_batch_settled_stmts [betW] resW],
      s = dbW ∨ s = mark_batch_settled dbW [betW] resW) := by
  have h := claim_C5_settle_transactional dbW [betW] resW rfl
  exact ⟨h.2.1, h.2.2.2.1⟩

/-! ## Claim C7 -/

/-- C7: one settlement tick collects at most batch_size bets, first popping
the retry queue in FIFO order and then taking pending store rows ordered by
processed_at ascending up to the remaining capacity; when the collected
batch is empty the tick returns with the retry queue, store and stats
unchanged and without invoking the driver. -/
theorem claim_C7_collect_order (size : Nat) (q : List PendingBet) (db : Db) :
    (collect_batch_from_db size q db).1 =
      q.take size ++
        ((sortByTime (db.bets.filter
            (fun r => decide (r.status = .pending)))).map rowToPending).take
          (size - (q.take size).length) ∧
    (collect_batch_from_db size q db).2 = q.drop size ∧
    (collect_batch_from_db size q db).1.length ≤ size ∧
    (∀ driverResult batchId nowInstant elapsedMs stats,
      (collect_batch_from_db size q db).1 = [] →
      process_settlement_batch size driverResult batchId nowInstant elapsedMs q db
        stats = (q, db, stats, false)) := by
  refine ⟨?_, ?_, ?_, ?_⟩
  · rw [collect_batch_eq]
  · rw [collect_batch_eq]
  · rw [collect_batch_eq]
    simp only [List.length_append, List.length_take, List.length_map]
    omega
  · intro driverResult batchId nowInstant elapsedMs stats hempty
    have h2 : (collect_batch_from_db size q db).2 = q := by
      have hpair := collect_batch_eq size q db
      have h1 : q.take size ++
          ((sortByTime (db.bets.filter
              (fun r => decide (r.status = .pending)))).map rowToPending).take
            (size - (q.take size).length) = [] := by
        rw [hpair] at hempty
        exact hempty
      rcases List.append_eq_nil.mp h1 with ⟨ht, -⟩
      rcases List.take_eq_nil_iff.mp ht with rfl | rfl
      · rw [hpair]
        simp
      · rw [hpair]
        simp
    rw [process_settlement_batch.eq_def]
    simp only [hempty, List.isEmpty_nil, if_true]
    rw [h2]

/-- C7 witness: an empty tick on an empty store changes nothing. -/
theorem claim_C7_witness :
    (collect_batch_from_db 50 [] (⟨[], []⟩ : Db)).1 = [] ∧
    process_settlement_batch 50 (.ok "tx") 1 2 3 [] ⟨[], []⟩ statsW =
      ([], ⟨[], []⟩, statsW, false) := by
  have hempty : (collect_batch_from_db 50 [] (⟨[], []⟩ : Db)).1 = [] := rfl
  exact ⟨hempty,
    (claim_C7_collect_order 50 [] ⟨[], []⟩).2.2.2 (.ok "tx") 1 2 3 statsW hempty⟩

/-! ## Claim C10 -/

/-- C10: no pipeline operation ever writes a positive retry_count into the
store: every reachable store state has retry_count = 0 on all rows (ingress
creates bets at 0, the drainer inserts that value, retry bumps stay in
memory, and the settled/failed updates leave the column untouched), so the
startup crash-recovery query for pending rows with positive retry_count
always returns the empty list. -/
theorem claim_C10_retry_count_immutable (s : PState) (h : Reach s) :
    (∀ r ∈ s.db.bets, r.retry_count = 0) ∧
    load_pending_bets_from_db s.db = [] := by
  have hz := (reach_retry_zero s h).2
  exact ⟨hz, load_pending_empty s.db hz⟩

/-- C10 witness: a state reached by one enqueue and one flush. -/
theorem claim_C10_witness :
    (∀ r ∈ (flush_batch_to_db ⟨[], []⟩
        (([] ++ [enqueue_bet_fast respToy reqToy 42 9]).take 1)).bets,
      r.retry_count = 0) ∧
    load_pending_bets_from_db
      (flush_batch_to_db ⟨[], []⟩
        (([] ++ [enqueue_bet_fast respToy reqToy 42 9]).take 1)) = [] :=
  claim_C10_retry_count_immutable _
    (Reach.flush _ 1 (Reach.enqueue _ respToy reqToy 42 9 Reach.init))
